import Mathlib

/-!
Verification of the CVRP example (`examples/python/cvrp.py`).

The script declares the problem data (`DataProblem`), builds a precomputed
Manhattan distance matrix (`CreateDistanceEvaluator`), a demand callback
(`CreateDemandEvaluator`), registers a capacity dimension, asks the routing
library for a cheapest-arc first solution, and prints the resulting routes.
The data model, both evaluators and the reporting arithmetic are embedded
here directly from the script.  The construction engine itself lives in the
routing library, outside this example file, so the cheapest-arc insertion
heuristic, the capacity dimension and its error taxonomy are modelled from
the specification (section 4.2, 4.3 and 7) and marked as such below.
-/

namespace CVRP

/-- Problem data, from class `DataProblem`: scaled locations, demands,
fleet size and the shared vehicle capacity (`Vehicle(capacity=15)`). -/
structure DataProblem where
  locations : List (Int × Int)
  demands : List Nat
  num_vehicles : Nat
  capacity : Nat
deriving DecidableEq

/-- The raw block-unit locations hard-coded in `DataProblem.__init__`. -/
def blockLocations : List (Int × Int) :=
  [(4, 4),
   (2, 0), (8, 0),
   (0, 1), (1, 1),
   (5, 2), (7, 2),
   (3, 3), (6, 3),
   (5, 5), (8, 5),
   (1, 6), (2, 6),
   (3, 7), (6, 7),
   (0, 8), (7, 8)]

/-- City block dimensions: `CityBlock(width=228/2, height=80)`. -/
def cityBlock : Int × Int := (228 / 2, 80)

/-- The concrete problem instance built by `DataProblem.__init__`:
locations scaled to meters, the demand list, 4 vehicles of capacity 15. -/
def theData : DataProblem :=
  { locations := blockLocations.map fun loc => (loc.1 * cityBlock.1, loc.2 * cityBlock.2)
  , demands :=
      [0,
       1, 1,
       2, 4,
       2, 4,
       8, 8,
       1, 2,
       1, 2,
       4, 4,
       8, 8]
  , num_vehicles := 4
  , capacity := 15 }

/-- `manhattan_distance(position_1, position_2)`: sum of absolute
coordinate differences. -/
def manhattan_distance (position_1 position_2 : Int × Int) : Nat :=
  (position_1.1 - position_2.1).natAbs + (position_1.2 - position_2.2).natAbs

/-- The precomputed distance matrix of `CreateDistanceEvaluator.__init__`,
parameterised by the metric: entry `(from_node, to_node)` is `0` on the
diagonal and otherwise the metric applied to the two stored locations. -/
def distances_with (d : DataProblem) (metric : Int × Int → Int × Int → Nat) :
    List (List Nat) :=
  (List.range d.locations.length).map fun from_node =>
    (List.range d.locations.length).map fun to_node =>
      if from_node = to_node then 0
      else metric (d.locations.getD from_node (0, 0)) (d.locations.getD to_node (0, 0))

/-- Lookup in the cached matrix, as `distance_evaluator(from_node, to_node)`. -/
def distance_evaluator_with (d : DataProblem) (metric : Int × Int → Int × Int → Nat)
    (from_node to_node : Nat) : Nat :=
  ((distances_with d metric).getD from_node []).getD to_node 0

/-- The matrix actually built by the script, using `manhattan_distance`. -/
def distances (d : DataProblem) : List (List Nat) :=
  distances_with d manhattan_distance

/-- `CreateDistanceEvaluator.distance_evaluator` with the Manhattan matrix. -/
def distance_evaluator (d : DataProblem) (from_node to_node : Nat) : Nat :=
  distance_evaluator_with d manhattan_distance from_node to_node

/-- `CreateDemandEvaluator.demand_evaluator`: returns `demands[from_node]`,
discarding `to_node` (`del to_node` in the script). -/
def demand_evaluator (d : DataProblem) (from_node to_node : Nat) : Nat :=
  d.demands.getD from_node 0

/-- Modelled from the spec: the Capacity Dimension's `demand(point_index)`
query (section 4.2), realised through the script's demand callback. -/
def demand (d : DataProblem) (p : Nat) : Nat :=
  demand_evaluator d p 0

/-- Modelled from the spec: total load of a route (a route is the ordered
list of its non-depot point indices; the depot endpoints are implicit). -/
def route_load (d : DataProblem) (route : List Nat) : Nat :=
  (route.map (demand d)).sum

/-- Modelled from the spec: `cumulative_load_at(route, position)`, the
running total of demands from route start through that position inclusive. -/
def cumulative_load_at (d : DataProblem) (route : List Nat) (pos : Nat) : Nat :=
  ((route.take (pos + 1)).map (demand d)).sum

/-- Modelled from the spec: the Capacity Dimension's feasibility test for
adding `p` to a route — the dimension never permits a mutation that would
drive any cumulative load over `capacity`, which for position-independent
demand sums is `route_load + demand p ≤ capacity` (section 4.2). -/
def can_insert (d : DataProblem) (route : List Nat) (p : Nat) : Bool :=
  decide (route_load d route + demand d p ≤ d.capacity)

/-- Modelled from the spec: a route extended with its depot endpoints,
`[depot, …, depot]` with the depot at index 0 (section 3, Route). -/
def route_path (route : List Nat) : List Nat :=
  0 :: route ++ [0]

/-- Modelled from the spec: marginal cost of inserting `p` between adjacent
positions `(pos, pos+1)` of the depot-bracketed route:
`distance(r[i], p) + distance(p, r[i+1]) - distance(r[i], r[i+1])`. -/
def marginal_cost (d : DataProblem) (route : List Nat) (p pos : Nat) : Int :=
  (distance_evaluator d ((route_path route).getD pos 0) p : Int)
    + (distance_evaluator d p ((route_path route).getD (pos + 1) 0) : Int)
    - (distance_evaluator d ((route_path route).getD pos 0)
        ((route_path route).getD (pos + 1) 0) : Int)

/-- Modelled from the spec: all capacity-feasible insertion candidates
`(p, r, pos)`, enumerated by ascending point index, then route index, then
position index — the spec's deterministic tie-break order (section 4.3b). -/
def insertion_cands (d : DataProblem) (routes : List (List Nat)) (unrouted : List Nat) :
    List (Nat × Nat × Nat) :=
  unrouted.flatMap fun p =>
    (List.range routes.length).flatMap fun r =>
      if can_insert d (routes.getD r []) p then
        (List.range ((routes.getD r []).length + 1)).map fun pos => (p, r, pos)
      else []

/-- Modelled from the spec: the cost of a candidate triple. -/
def cand_cost (d : DataProblem) (routes : List (List Nat)) (c : Nat × Nat × Nat) : Int :=
  marginal_cost d (routes.getD c.2.1 []) c.1 c.2.2

/-- Modelled from the spec: the error taxonomy of section 7 —
`invalidInstance` for upfront input rejection, `infeasible` for
mid-construction exhaustion, each carrying an offending point index. -/
inductive ConstructErr where
  | invalidInstance : Nat → ConstructErr
  | infeasible : Nat → ConstructErr
deriving DecidableEq

/-- Modelled from the spec: the cheapest-arc insertion loop (section 4.3).
While unrouted points remain, pick the feasible `(p, r, pos)` candidate of
globally minimum marginal cost (`argmin` returns the first minimum, which
in the enumeration order of `insertion_cands` is exactly the spec's
tie-break), insert it, and recurse; report `infeasible` with an unrouted
point when no candidate exists.  Fuel bounds the recursion; one point is
routed per step, so `unrouted.length` fuel always suffices. -/
def construct_loop (d : DataProblem) :
    Nat → List (List Nat) → List Nat → Except ConstructErr (List (List Nat))
  | _, routes, [] => Except.ok routes
  | 0, _, q :: _ => Except.error (ConstructErr.infeasible q)
  | fuel + 1, routes, q :: rest =>
    match (insertion_cands d routes (q :: rest)).argmin (cand_cost d routes) with
    | none => Except.error (ConstructErr.infeasible q)
    | some c =>
        construct_loop d fuel
          (routes.set c.2.1 (List.insertIdx c.2.2 c.1 (routes.getD c.2.1 [])))
          ((q :: rest).erase c.1)

/-- Modelled from the spec: the upfront validity check of section 7 —
nonzero depot demand, or any point whose demand exceeds the vehicle
capacity, makes the instance invalid; returns the first offender. -/
def invalid_point (d : DataProblem) : Option Nat :=
  if d.demands.getD 0 0 ≠ 0 then some 0
  else (List.range d.locations.length).find? fun p => decide (d.capacity < demand d p)

/-- Modelled from the spec: the Route Constructor (section 4.3) — validate
the instance upfront, then run the cheapest-arc insertion loop starting
from `num_vehicles` empty routes and all non-depot points unrouted. -/
def construct (d : DataProblem) : Except ConstructErr (List (List Nat)) :=
  match invalid_point d with
  | some p => Except.error (ConstructErr.invalidInstance p)
  | none =>
      construct_loop d ((List.range d.locations.length).drop 1).length
        (List.replicate d.num_vehicles [])
        ((List.range d.locations.length).drop 1)

/-- Leg-by-leg distance accumulation of `print_solution`'s inner loop:
walk the node sequence, adding the arc cost of each consecutive pair. -/
def path_distance (d : DataProblem) : List Nat → Nat
  | a :: b :: rest => distance_evaluator d a b + path_distance d (b :: rest)
  | _ => 0

/-- Distance of one vehicle's route as `print_solution` accumulates it:
the walk starts at the depot, visits the route's points, and ends with the
return-to-depot arc. -/
def route_distance (d : DataProblem) (route : List Nat) : Nat :=
  path_distance d (route_path route)

/-- `total_distance` accumulation of `print_solution`:
`total_distance += distance` over the vehicles in order. -/
def total_distance (d : DataProblem) (routes : List (List Nat)) : Nat :=
  routes.foldl (fun acc r => acc + route_distance d r) 0

/-- `total_load` accumulation of `print_solution`: the cumulative load at
each route's end node, summed over the vehicles in order. -/
def total_load (d : DataProblem) (routes : List (List Nat)) : Nat :=
  routes.foldl (fun acc r => acc + route_load d r) 0

/-- Small instance for concrete runs: the spec's scenario of a depot plus 4
points, all demands 1, capacity 2, fleet size 2. -/
def smallData : DataProblem :=
  { locations := [(0, 0), (1, 0), (2, 0), (3, 0), (4, 0)]
  , demands := [0, 1, 1, 1, 1]
  , num_vehicles := 2
  , capacity := 2 }

/-- Instance whose only point has demand above the capacity. -/
def overloadData : DataProblem :=
  { locations := [(0, 0), (1, 1)]
  , demands := [0, 10]
  , num_vehicles := 1
  , capacity := 5 }

/-- Instance with two demand-3 points and a single capacity-5 vehicle:
each point fits on its own, but not both on one route. -/
def stuckData : DataProblem :=
  { locations := [(0, 0), (1, 0), (2, 0)]
  , demands := [0, 3, 3]
  , num_vehicles := 1
  , capacity := 5 }

lemma distances_with_entry (d : DataProblem) (metric : Int × Int → Int × Int → Nat)
    {i j : Nat} (hi : i < d.locations.length) (hj : j < d.locations.length) :
    distance_evaluator_with d metric i j =
      if i = j then 0
      else metric (d.locations.getD i (0, 0)) (d.locations.getD j (0, 0)) := by
  have hrow : (distances_with d metric).getD i [] =
      (List.range d.locations.length).map fun to_node =>
        if i = to_node then 0
        else metric (d.locations.getD i (0, 0)) (d.locations.getD to_node (0, 0)) := by
    unfold distances_with
    rw [List.getD_eq_getElem _ _ (by simpa using hi), List.getElem_map]
    simp
  unfold distance_evaluator_with
  rw [hrow, List.getD_eq_getElem _ _ (by simpa using hj), List.getElem_map]
  simp

lemma distance_evaluator_with_diag (d : DataProblem)
    (metric : Int × Int → Int × Int → Nat) (i : Nat) :
    distance_evaluator_with d metric i i = 0 := by
  by_cases hi : i < d.locations.length
  · rw [distances_with_entry d metric hi hi]
    simp
  · unfold distance_evaluator_with
    rw [show (distances_with d metric).getD i [] = [] from
      List.getD_eq_default _ _ (by simpa [distances_with] using Nat.le_of_not_lt hi)]
    rfl

lemma manhattan_self (p : Int × Int) : manhattan_distance p p = 0 := by
  simp [manhattan_distance]

lemma manhattan_comm (p q : Int × Int) :
    manhattan_distance p q = manhattan_distance q p := by
  unfold manhattan_distance
  rw [← Int.natAbs_neg (p.1 - q.1), neg_sub, ← Int.natAbs_neg (p.2 - q.2), neg_sub]

/-- Claim C3: for all in-range indices the cached matrix value equals the
Manhattan distance recomputed directly from the stored coordinates, and the
diagonal is 0 for every index independent of the metric. -/
theorem distance_matrix_correct (d : DataProblem) {i j : Nat}
    (hi : i < d.locations.length) (hj : j < d.locations.length) :
    distance_evaluator d i j =
      manhattan_distance (d.locations.getD i (0, 0)) (d.locations.getD j (0, 0)) ∧
    ∀ (metric : Int × Int → Int × Int → Nat) (k : Nat),
      distance_evaluator_with d metric k k = 0 := by
  refine ⟨?_, fun metric k => distance_evaluator_with_diag d metric k⟩
  rw [distance_evaluator, distances_with_entry d _ hi hj]
  by_cases h : i = j
  · subst h
    rw [if_pos rfl, manhattan_self]
  · rw [if_neg h]

theorem distance_matrix_correct_witness :
    distance_evaluator theData 2 5 =
      manhattan_distance (theData.locations.getD 2 (0, 0))
        (theData.locations.getD 5 (0, 0)) :=
  (distance_matrix_correct theData (by decide) (by decide)).1

/-- Claim C9: the cost oracle built from the Manhattan metric is symmetric
on all in-range index pairs. -/
theorem distance_symmetric (d : DataProblem) {i j : Nat}
    (hi : i < d.locations.length) (hj : j < d.locations.length) :
    distance_evaluator d i j = distance_evaluator d j i := by
  unfold distance_evaluator
  rw [distances_with_entry d _ hi hj, distances_with_entry d _ hj hi]
  by_cases h : i = j
  · subst h
    rfl
  · rw [if_neg h, if_neg (Ne.symm h), manhattan_comm]

theorem distance_symmetric_witness :
    distance_evaluator theData 1 4 = distance_evaluator theData 4 1 :=
  @distance_symmetric theData 1 4 (by decide) (by decide)

/-- Claim C10: the demand evaluator ignores its second argument and returns
`demands[from_node]`; the depot's demand is 0 and every demand of the
instance is at most the capacity 15. -/
theorem demand_evaluator_ignores_second_arg :
    (∀ from_node a b : Nat, from_node < theData.locations.length →
        demand_evaluator theData from_node a = demand_evaluator theData from_node b ∧
        demand_evaluator theData from_node a = theData.demands.getD from_node 0) ∧
    demand_evaluator theData 0 0 = 0 ∧
    ∀ q ∈ theData.demands, q ≤ theData.capacity :=
  ⟨fun _ _ _ _ => ⟨rfl, rfl⟩, rfl, by decide⟩

theorem demand_evaluator_ignores_second_arg_witness :
    demand_evaluator theData 7 3 = demand_evaluator theData 7 9 ∧
    demand_evaluator theData 7 3 = theData.demands.getD 7 0 :=
  demand_evaluator_ignores_second_arg.1 7 3 9 (by decide)

/-- Claim C8: route construction is a deterministic function of the problem
instance — two runs on the same instance yield identical results. -/
theorem construction_deterministic (d d' : DataProblem) (h : d = d') :
    construct d = construct d' := by
  rw [h]

theorem construction_deterministic_witness :
    construct theData = construct theData :=
  construction_deterministic theData theData rfl

lemma foldl_add_eq_sum {α : Type} (f : α → Nat) : ∀ (l : List α) (a : Nat),
    l.foldl (fun acc x => acc + f x) a = a + (l.map f).sum
  | [], a => by simp
  | x :: t, a => by
      simp only [List.foldl_cons, List.map_cons, List.sum_cons]
      rw [foldl_add_eq_sum f t (a + f x)]
      omega

lemma cumulative_last (d : DataProblem) (r : List Nat) :
    cumulative_load_at d r (r.length - 1) = route_load d r := by
  cases r with
  | nil => rfl
  | cons x t =>
      unfold cumulative_load_at route_load
      rw [show (x :: t).length - 1 + 1 = (x :: t).length from by simp, List.take_length]

/-- Claim C6: the reporter's fleet-wide total distance is the sum of the
per-route distances it reports, and its fleet-wide total load is the sum
over routes of the cumulative load at each route's final position. -/
theorem reporter_totals_are_sums (d : DataProblem) (routes : List (List Nat)) :
    total_distance d routes = (routes.map (route_distance d)).sum ∧
    total_load d routes =
      (routes.map fun r => cumulative_load_at d r (r.length - 1)).sum := by
  refine ⟨by simpa using foldl_add_eq_sum (route_distance d) routes 0, ?_⟩
  rw [List.map_congr_left fun r _ => cumulative_last d r]
  simpa using foldl_add_eq_sum (route_load d) routes 0

lemma path_distance_legs (d : DataProblem) : ∀ (route : List Nat) (a : Nat),
    path_distance d (a :: route ++ [0]) =
      (((a :: route).zip route).map fun leg => distance_evaluator d leg.1 leg.2).sum
        + distance_evaluator d ((a :: route).getLast (List.cons_ne_nil a route)) 0
  | [], a => by simp [path_distance]
  | b :: t, a => by
      have ih := path_distance_legs d t b
      show distance_evaluator d a b + path_distance d (b :: t ++ [0]) = _
      rw [ih]
      rw [show (a :: b :: t).zip (b :: t) = (a, b) :: (b :: t).zip t from rfl]
      rw [List.map_cons, List.sum_cons,
        List.getLast_cons (List.cons_ne_nil b t)]
      simp only [Prod.fst, Prod.snd]
      omega

/-- Claim C7: a route's reported distance is the sum of the oracle
distances over its consecutive legs starting from the depot, plus the
final return-to-depot leg; the empty route has distance 0 and load 0. -/
theorem route_distance_is_leg_sum (d : DataProblem) (route : List Nat) :
    route_distance d route =
      (((0 :: route).zip route).map fun leg => distance_evaluator d leg.1 leg.2).sum
        + distance_evaluator d ((0 :: route).getLast (List.cons_ne_nil 0 route)) 0 ∧
    route_distance d [] = 0 ∧ route_load d [] = 0 := by
  refine ⟨path_distance_legs d route 0, ?_, rfl⟩
  show distance_evaluator d 0 0 + path_distance d [0] = 0
  rw [show path_distance d [0] = 0 from rfl, Nat.add_zero]
  exact distance_evaluator_with_diag d manhattan_distance 0

lemma construct_loop_succ (d : DataProblem) (fuel : Nat) (routes : List (List Nat))
    (q : Nat) (rest : List Nat) :
    construct_loop d (fuel + 1) routes (q :: rest) =
      match (insertion_cands d routes (q :: rest)).argmin (cand_cost d routes) with
      | none => Except.error (ConstructErr.infeasible q)
      | some c =>
          construct_loop d fuel
            (routes.set c.2.1 (List.insertIdx c.2.2 c.1 (routes.getD c.2.1 [])))
            ((q :: rest).erase c.1) := rfl

lemma mem_insertion_cands {d : DataProblem} {routes : List (List Nat)}
    {unrouted : List Nat} {c : Nat × Nat × Nat}
    (h : c ∈ insertion_cands d routes unrouted) :
    c.1 ∈ unrouted ∧ c.2.1 < routes.length ∧
      c.2.2 ≤ (routes.getD c.2.1 []).length ∧
      route_load d (routes.getD c.2.1 []) + demand d c.1 ≤ d.capacity := by
  unfold insertion_cands at h
  rw [List.mem_flatMap] at h
  obtain ⟨p, hp, h⟩ := h
  rw [List.mem_flatMap] at h
  obtain ⟨r, hr, h⟩ := h
  rw [List.mem_range] at hr
  split at h
  · rw [List.mem_map] at h
    obtain ⟨pos, hpos, rfl⟩ := h
    rw [List.mem_range] at hpos
    refine ⟨hp, hr, ?_, ?_⟩
    · show pos ≤ (routes.getD r []).length
      omega
    · show route_load d (routes.getD r []) + demand d p ≤ d.capacity
      simpa [can_insert] using
        (by assumption : can_insert d (routes.getD r []) p = true)
  · simp at h

lemma insertIdx_perm_cons (a : Nat) : ∀ (n : Nat) (l : List Nat), n ≤ l.length →
    (List.insertIdx n a l).Perm (a :: l)
  | 0, l, _ => by
      rw [List.insertIdx_zero]
  | n + 1, [], h => absurd h (by simp)
  | n + 1, b :: t, h => by
      rw [List.insertIdx_succ_cons]
      exact ((insertIdx_perm_cons a n t (by simpa using h)).cons b).trans
        (List.Perm.swap a b t)

lemma flatten_set_perm {routes : List (List Nat)} {r : Nat} (hr : r < routes.length)
    {p : Nat} {x : List Nat} (hx : x.Perm (p :: routes.getD r [])) :
    (routes.set r x).flatten.Perm (p :: routes.flatten) := by
  have hset : routes.set r x = routes.take r ++ x :: routes.drop (r + 1) := by
    rw [List.set_eq_take_append_cons_drop, if_pos hr]
  have hsplit : routes = routes.take r ++ routes.getD r [] :: routes.drop (r + 1) := by
    conv_lhs => rw [← List.take_append_drop r routes]
    rw [List.drop_eq_getElem_cons hr, List.getD_eq_getElem _ _ hr]
  rw [hset]
  conv_rhs => rw [hsplit]
  simp only [List.flatten_append, List.flatten_cons]
  refine (List.Perm.append_left _ (hx.append_right _)).trans ?_
  exact List.perm_middle

lemma construct_loop_perm (d : DataProblem) : ∀ (fuel : Nat) (routes : List (List Nat))
    (unrouted : List Nat) (final : List (List Nat)),
    construct_loop d fuel routes unrouted = Except.ok final →
    final.flatten.Perm (routes.flatten ++ unrouted) := by
  intro fuel
  induction fuel with
  | zero =>
      intro routes unrouted final h
      cases unrouted with
      | nil =>
          obtain rfl : routes = final := by simpa [construct_loop] using h
          simp
      | cons q rest => simp [construct_loop] at h
  | succ n ih =>
      intro routes unrouted final h
      cases unrouted with
      | nil =>
          obtain rfl : routes = final := by simpa [construct_loop] using h
          simp
      | cons q rest =>
          rw [construct_loop_succ] at h
          split at h
          · exact absurd h (by simp)
          · rename_i c heq
            have hmem : c ∈ insertion_cands d routes (q :: rest) :=
              List.argmin_mem (Option.mem_def.mpr heq)
            obtain ⟨hp, hr, hpos, _⟩ := mem_insertion_cands hmem
            have h2 : (routes.set c.2.1
                  (List.insertIdx c.2.2 c.1 (routes.getD c.2.1 []))).flatten.Perm
                (c.1 :: routes.flatten) :=
              flatten_set_perm hr (insertIdx_perm_cons c.1 c.2.2 _ hpos)
            have h3 : (q :: rest).Perm (c.1 :: (q :: rest).erase c.1) :=
              List.perm_cons_erase hp
            refine (ih _ _ _ h).trans ?_
            refine (h2.append_right _).trans ?_
            exact List.perm_middle.symm.trans (List.Perm.append_left _ h3.symm)

lemma replicate_nil_flatten (V : Nat) :
    (List.replicate V ([] : List Nat)).flatten = [] := by
  induction V with
  | zero => rfl
  | succ n ih => simp [List.replicate_succ, ih]

lemma mem_range_drop_one {n p : Nat} : p ∈ (List.range n).drop 1 ↔ 1 ≤ p ∧ p < n := by
  cases n with
  | zero => simp
  | succ m =>
      rw [List.range_succ_eq_map]
      simp only [List.drop_succ_cons, List.drop_zero]
      constructor
      · intro h
        rw [List.mem_map] at h
        obtain ⟨k, hk, rfl⟩ := h
        rw [List.mem_range] at hk
        omega
      · intro h
        rw [List.mem_map]
        exact ⟨p - 1, by rw [List.mem_range]; omega, by omega⟩

/-- Claim C1: whenever construction succeeds, the union of the produced
routes is a permutation of the non-depot point indices `1..N-1`, so each
such point is visited exactly once across the whole solution. -/
theorem solution_visits_each_point_once (d : DataProblem) (routes : List (List Nat))
    (h : construct d = Except.ok routes) :
    routes.flatten.Perm ((List.range d.locations.length).drop 1) ∧
    ∀ p, 1 ≤ p → p < d.locations.length → routes.flatten.count p = 1 := by
  unfold construct at h
  split at h
  · exact absurd h (by simp)
  · have hperm := construct_loop_perm d _ _ _ _ h
    rw [replicate_nil_flatten, List.nil_append] at hperm
    refine ⟨hperm, fun p h1 h2 => ?_⟩
    rw [hperm.count_eq]
    exact List.count_eq_one_of_mem
      ((List.nodup_range d.locations.length).sublist
        (List.drop_sublist 1 (List.range d.locations.length)))
      (mem_range_drop_one.mpr ⟨h1, h2⟩)

theorem solution_visits_each_point_once_witness :
    ([[2, 1], [4, 3]] : List (List Nat)).flatten.Perm
      ((List.range smallData.locations.length).drop 1) :=
  (solution_visits_each_point_once smallData [[2, 1], [4, 3]] (by rfl)).1

lemma construct_loop_load (d : DataProblem) : ∀ (fuel : Nat) (routes : List (List Nat))
    (unrouted : List Nat) (final : List (List Nat)),
    (∀ r ∈ routes, route_load d r ≤ d.capacity) →
    construct_loop d fuel routes unrouted = Except.ok final →
    ∀ r ∈ final, route_load d r ≤ d.capacity := by
  intro fuel
  induction fuel with
  | zero =>
      intro routes unrouted final hinv h
      cases unrouted with
      | nil =>
          obtain rfl : routes = final := by simpa [construct_loop] using h
          exact hinv
      | cons q rest => simp [construct_loop] at h
  | succ n ih =>
      intro routes unrouted final hinv h
      cases unrouted with
      | nil =>
          obtain rfl : routes = final := by simpa [construct_loop] using h
          exact hinv
      | cons q rest =>
          rw [construct_loop_succ] at h
          split at h
          · exact absurd h (by simp)
          · rename_i c heq
            have hmem : c ∈ insertion_cands d routes (q :: rest) :=
              List.argmin_mem (Option.mem_def.mpr heq)
            obtain ⟨hp, hr, hpos, hcap⟩ := mem_insertion_cands hmem
            refine ih _ _ _ ?_ h
            intro r hrmem
            rcases List.mem_or_eq_of_mem_set hrmem with hold | rfl
            · exact hinv r hold
            · have hperm := insertIdx_perm_cons c.1 c.2.2 (routes.getD c.2.1 []) hpos
              have hload : route_load d
                    (List.insertIdx c.2.2 c.1 (routes.getD c.2.1 []))
                  = demand d c.1 + route_load d (routes.getD c.2.1 []) := by
                unfold route_load
                rw [(hperm.map (demand d)).sum_eq, List.map_cons, List.sum_cons]
              omega

lemma sum_take_le_sum (l : List Nat) (k : Nat) : (l.take k).sum ≤ l.sum := by
  conv_rhs => rw [← List.take_append_drop k l]
  rw [List.sum_append]
  exact Nat.le_add_right _ _

lemma cumulative_le_load (d : DataProblem) (r : List Nat) (pos : Nat) :
    cumulative_load_at d r pos ≤ route_load d r := by
  unfold cumulative_load_at route_load
  rw [List.map_take]
  exact sum_take_le_sum _ _

lemma cumulative_mono (d : DataProblem) (r : List Nat) {i j : Nat} (hij : i ≤ j) :
    cumulative_load_at d r i ≤ cumulative_load_at d r j := by
  unfold cumulative_load_at
  rw [List.map_take, List.map_take]
  rw [show (r.map (demand d)).take (i + 1)
      = ((r.map (demand d)).take (j + 1)).take (i + 1) from by
    rw [List.take_take]
    congr 1
    omega]
  exact sum_take_le_sum _ _

/-- Claim C2: in every route of a successfully constructed solution, the
cumulative load is bounded by the vehicle capacity at every position and
is non-decreasing along the route; the constructor admits an insertion
only when this bound is preserved. -/
theorem solution_respects_capacity (d : DataProblem) (routes : List (List Nat))
    (h : construct d = Except.ok routes) :
    ∀ r ∈ routes, (∀ pos, cumulative_load_at d r pos ≤ d.capacity) ∧
      ∀ i j, i ≤ j → cumulative_load_at d r i ≤ cumulative_load_at d r j := by
  unfold construct at h
  split at h
  · exact absurd h (by simp)
  · have hinit : ∀ r ∈ List.replicate d.num_vehicles ([] : List Nat),
        route_load d r ≤ d.capacity := by
      intro r hr
      rw [List.eq_of_mem_replicate hr]
      exact Nat.zero_le _
    have hload := construct_loop_load d _ _ _ _ hinit h
    intro r hr
    exact ⟨fun pos => (cumulative_le_load d r pos).trans (hload r hr),
      fun i j hij => cumulative_mono d r hij⟩

theorem solution_respects_capacity_witness :
    cumulative_load_at smallData [2, 1] 1 ≤ smallData.capacity :=
  ((solution_respects_capacity smallData [[2, 1], [4, 3]] (by rfl))
    [2, 1] (by simp)).1 1

/-- Claim C4: an instance containing a point whose demand exceeds the
vehicle capacity is rejected upfront with `invalidInstance` — the
constructor returns that error without running the insertion loop, and
the error is a different constructor from mid-construction infeasibility. -/
theorem overdemand_rejected_upfront (d : DataProblem) (p : Nat)
    (hp : p < d.locations.length) (hd : d.capacity < demand d p) :
    construct d =
      Except.error (ConstructErr.invalidInstance ((invalid_point d).getD 0)) ∧
    ∀ x y : Nat, ConstructErr.invalidInstance x ≠ ConstructErr.infeasible y := by
  refine ⟨?_, fun x y hxy => ConstructErr.noConfusion hxy⟩
  cases hip : invalid_point d with
  | some q => simp [construct, hip]
  | none =>
      exfalso
      unfold invalid_point at hip
      split at hip
      · exact absurd hip (by simp)
      · have hall := List.find?_eq_none.mp hip p (List.mem_range.mpr hp)
        simp only [decide_eq_true_eq] at hall
        omega

theorem overdemand_rejected_upfront_witness :
    construct overloadData =
      Except.error
        (ConstructErr.invalidInstance ((invalid_point overloadData).getD 0)) :=
  (overdemand_rejected_upfront overloadData 1 (by decide) (by decide)).1

/-- Claim C5: at any construction step whose state admits no feasible
insertion for any remaining unrouted point, the loop terminates with the
`infeasible` error naming an unrouted point — no solution is returned. -/
theorem stuck_construction_reports_infeasible (d : DataProblem) (fuel : Nat)
    (routes : List (List Nat)) (q : Nat) (rest : List Nat)
    (hstuck : insertion_cands d routes (q :: rest) = []) :
    construct_loop d fuel routes (q :: rest) =
      Except.error (ConstructErr.infeasible q) ∧
    q ∈ q :: rest := by
  refine ⟨?_, List.mem_cons_self q rest⟩
  cases fuel with
  | zero => rfl
  | succ n =>
      rw [construct_loop_succ, hstuck]
      rfl

theorem stuck_construction_reports_infeasible_witness :
    construct_loop stuckData 7 [[1]] [2] =
      Except.error (ConstructErr.infeasible 2) ∧
    (2 : Nat) ∈ ([2] : List Nat) :=
  stuck_construction_reports_infeasible stuckData 7 [[1]] 2 [] (by rfl)

end CVRP
